import Mathlib

/-!
Shallow embedding of the fee/distribution optimizer of `src/feeCalculator.js`
(function `calculateOptimalFee`) together with the helper `ceilToBigInt` from
`src/utils.js`.

Modelling conventions:
* JavaScript `BigInt` values are modelled as `ℤ`.  All divisions and remainders
  performed by the source act on a positive dividend and a positive divisor
  (the dividend `totalInputValue - currentFeeGuess` is positive whenever the
  division is reached, and `numTargets` is positive past the zero-target
  guard), where JavaScript truncating division agrees with Lean division on
  `ℤ`, so `/` and `%` are used directly.
* The `Decimal` fee rate is modelled as `ℚ`; the product
  `new Decimal(totalVBytes).mul(feeRate)` followed by `ceilToBigInt` is
  implemented by exact integer arithmetic on the numerator and denominator and
  proved equal to the rational ceiling (`sizeBasedFeeOf_eq_ceil`).
* The sizing oracle (`createRawTx` followed by `decodeRawTx`, which yields
  `decodedTx.vsize`) is an arbitrary function from the loop-iteration index
  and the candidate amount per output to either a base-vbyte count or the
  message of a thrown error.
* Thrown `Error`s are modelled by the inductive `FeeErr`; `FeeErr.message`
  reproduces the message text the source attaches (abridged to the leading
  fixed text for the diagnostic-laden ones).
* Besides the result, the model records the oracle queries, the successive
  values of `currentFeeGuess`, and the successive values of
  `lastRequiredFee`, so that statements about the iteration behaviour can be
  made.
-/

/-- Errors thrown by `calculateOptimalFee` (`src/feeCalculator.js`). -/
inductive FeeErr where
  | zeroTargets : FeeErr
  | nonPositiveTotal : FeeErr
  | sizingFailure (msg : String) : FeeErr
  | insufficientFundsRequired (lastRequiredFee lastSizeBasedFee lastRemainderSats : ℤ)
      (lastTotalEstimatedVBytes : ℕ) : FeeErr
  | insufficientFundsGuess (lastGuess : ℤ) : FeeErr
  | nonConvergence (lastGuess lastRequiredFee : ℤ) : FeeErr
  | generalFailure (lastGuess : ℤ) : FeeErr
  | invariantViolation : FeeErr
deriving Repr, DecidableEq

/-- Message text of each thrown error, as built in `src/feeCalculator.js`
(lines 20, 23, 122, 150, 152, 154, 157, 187); the long diagnostic
interpolations are abridged to their fixed leading text. -/
def FeeErr.message : FeeErr → String
  | .zeroTargets => "Cannot calculate fee with zero target outputs."
  | .nonPositiveTotal => "Total input value must be positive."
  | .sizingFailure msg => "Failed during fee calculation iteration: " ++ msg
  | .insufficientFundsRequired req _ _ _ =>
      "Insufficient funds: Total input is less than or equal to the minimum required fee (" ++
        toString req ++ " sats)."
  | .insufficientFundsGuess g =>
      "Insufficient funds: Final fee guess (" ++ toString g ++
        " sats) reached or exceeded total input value during search."
  | .nonConvergence g req =>
      "Failed to converge on an optimal fee within 20 iterations. Last Guess: " ++
        toString g ++ ", Last Required Fee: " ++ toString req ++ "."
  | .generalFailure g =>
      "Failed to determine a valid fee/distribution. Last guess: " ++ toString g ++ "."
  | .invariantViolation => "Internal error: Final balance equation does not hold."

/-- Total estimated virtual size: `lastCalculatedBaseVBytes +
numInputs * estimatedWitnessVBytesPerInput` (feeCalculator.js lines 84 and 85). -/
def totalVBytesOf (base numInputs witnessPerInput : ℕ) : ℕ :=
  base + numInputs * witnessPerInput

/-- Model of `ceilToBigInt` from `src/utils.js`: the ceiling of an
arbitrary-precision decimal value, returned as a big integer. -/
def ceilToBigInt (value : ℚ) : ℤ := ⌈value⌉

/-- The size-based fee of one loop iteration:
`ceilToBigInt(new Decimal(lastTotalEstimatedVBytes).mul(feeRateSatPerVbyte))`
(feeCalculator.js lines 89 and 90), computed by exact integer arithmetic on the
numerator and denominator of the rate; `sizeBasedFeeOf_eq_ceil` proves it equal
to `ceilToBigInt` of the rational product. -/
def sizeBasedFeeOf (base numInputs witnessPerInput : ℕ) (feeRate : ℚ) : ℤ :=
  -(-((totalVBytesOf base numInputs witnessPerInput : ℤ) * feeRate.num) / (feeRate.den : ℤ))

/-- The local variables of `calculateOptimalFee` as they stand when the search
loop is left (by `break` or by exhausting the iteration counter). -/
structure ExitData where
  finalFee : ℤ
  amountPerOutput : ℤ
  iFinal : ℕ
  currentFeeGuess : ℤ
  lastTotalEstimatedVBytes : ℕ
  lastSizeBasedFee : ℤ
  lastRemainderSats : ℤ
  lastRequiredFee : ℤ
deriving Repr, DecidableEq

/-- Outcome of the search loop: normal exit, or an oracle failure thrown out
of the `try` block (feeCalculator.js lines 120 to 123). -/
inductive LoopRes where
  | exit (e : ExitData) : LoopRes
  | oracleFail (msg : String) : LoopRes
deriving Repr, DecidableEq

/-- Loop outcome together with the recorded traces: the amounts submitted to
the sizing oracle, the successive values of `currentFeeGuess`, and the
successive values of `lastRequiredFee`. -/
structure LoopOut where
  res : LoopRes
  queries : List ℤ
  guesses : List ℤ
  requireds : List ℤ
deriving Repr, DecidableEq

/-- `MAX_FEE_ITERATIONS = 20` (feeCalculator.js line 38). -/
def MAX_FEE_ITERATIONS : ℕ := 20

/-- The `for` loop of `calculateOptimalFee` (feeCalculator.js lines 40 to 133),
with `fuel` iterations remaining, current index `i`, current fee guess `g` and
the carried `last*` diagnostics. -/
def feeLoop (numInputs witnessPerInput numTargets : ℕ) (totalInputValue : ℤ)
    (feeRate : ℚ) (oracle : ℕ → ℤ → Except String ℕ) :
    ℕ → ℕ → ℤ → ℤ → ℤ → ℤ → ℕ → LoopOut
  | 0, i, g, lastReq, lastSize, lastRem, lastTotal =>
      { res := .exit { finalFee := -1, amountPerOutput := -1, iFinal := i,
                       currentFeeGuess := g, lastTotalEstimatedVBytes := lastTotal,
                       lastSizeBasedFee := lastSize, lastRemainderSats := lastRem,
                       lastRequiredFee := lastReq },
        queries := [], guesses := [g], requireds := [] }
  | fuel + 1, i, g, lastReq, lastSize, lastRem, lastTotal =>
      if g ≥ totalInputValue then
        { res := .exit { finalFee := -1, amountPerOutput := 0, iFinal := i,
                         currentFeeGuess := g, lastTotalEstimatedVBytes := lastTotal,
                         lastSizeBasedFee := lastSize, lastRemainderSats := lastRem,
                         lastRequiredFee := lastReq },
          queries := [], guesses := [g], requireds := [] }
      else
        let valueToDistribute := totalInputValue - g
        let currentAmountPerOutput := valueToDistribute / (numTargets : ℤ)
        if currentAmountPerOutput ≤ 0 then
          { res := .exit { finalFee := -1, amountPerOutput := 0, iFinal := i,
                           currentFeeGuess := g, lastTotalEstimatedVBytes := lastTotal,
                           lastSizeBasedFee := lastSize, lastRemainderSats := lastRem,
                           lastRequiredFee := lastReq },
            queries := [], guesses := [g], requireds := [] }
        else
          match oracle i currentAmountPerOutput with
          | .error msg =>
              { res := .oracleFail msg,
                queries := [currentAmountPerOutput], guesses := [g], requireds := [] }
          | .ok base =>
              let tv := totalVBytesOf base numInputs witnessPerInput
              let s := sizeBasedFeeOf base numInputs witnessPerInput feeRate
              let r := valueToDistribute % (numTargets : ℤ)
              let req := s + r
              if g ≥ req then
                { res := .exit { finalFee := g, amountPerOutput := currentAmountPerOutput,
                                 iFinal := i, currentFeeGuess := g,
                                 lastTotalEstimatedVBytes := tv, lastSizeBasedFee := s,
                                 lastRemainderSats := r, lastRequiredFee := req },
                  queries := [currentAmountPerOutput], guesses := [g], requireds := [req] }
              else
                if req < 0 then
                  { res := .exit { finalFee := -1, amountPerOutput := 0, iFinal := i,
                                   currentFeeGuess := req, lastTotalEstimatedVBytes := tv,
                                   lastSizeBasedFee := s, lastRemainderSats := r,
                                   lastRequiredFee := req },
                    queries := [currentAmountPerOutput], guesses := [g, req],
                    requireds := [req] }
                else
                  let rest := feeLoop numInputs witnessPerInput numTargets totalInputValue
                    feeRate oracle fuel (i + 1) req req s r tv
                  { res := rest.res,
                    queries := currentAmountPerOutput :: rest.queries,
                    guesses := g :: rest.guesses,
                    requireds := req :: rest.requireds }

instance {ε α : Type} [DecidableEq ε] [DecidableEq α] : DecidableEq (Except ε α) := fun x y =>
  match x, y with
  | .ok a, .ok b =>
      match decEq a b with
      | isTrue h => isTrue (by rw [h])
      | isFalse h => isFalse (by intro hc; cases hc; exact h rfl)
  | .ok _, .error _ => isFalse (by intro hc; cases hc)
  | .error _, .ok _ => isFalse (by intro hc; cases hc)
  | .error a, .error b =>
      match decEq a b with
      | isTrue h => isTrue (by rw [h])
      | isFalse h => isFalse (by intro hc; cases hc; exact h rfl)

/-- Result of a whole `calculateOptimalFee` call, with the recorded traces. -/
structure RunOut where
  result : Except FeeErr (ℤ × ℤ)
  queries : List ℤ
  guesses : List ℤ
  requireds : List ℤ
deriving Repr, DecidableEq

/-- The part of `calculateOptimalFee` after the loop (feeCalculator.js lines
136 to 195): the error selection for a failed search, the final balance
sanity check, and the construction of the returned result. -/
def finishResult (numTargets : ℕ) (totalInputValue : ℤ) (out : LoopOut) :
    Except FeeErr (ℤ × ℤ) :=
  match out.res with
  | .oracleFail msg => .error (.sizingFailure msg)
  | .exit e =>
      if e.finalFee ≤ 0 ∨ e.amountPerOutput ≤ 0 then
        if 0 < e.lastTotalEstimatedVBytes ∧ e.lastRequiredFee ≥ totalInputValue then
          .error (.insufficientFundsRequired e.lastRequiredFee e.lastSizeBasedFee
            e.lastRemainderSats e.lastTotalEstimatedVBytes)
        else if e.currentFeeGuess ≥ totalInputValue then
          .error (.insufficientFundsGuess e.currentFeeGuess)
        else if e.iFinal ≥ MAX_FEE_ITERATIONS then
          .error (.nonConvergence e.currentFeeGuess e.lastRequiredFee)
        else
          .error (.generalFailure e.currentFeeGuess)
      else
        if e.amountPerOutput * (numTargets : ℤ) + e.finalFee ≠ totalInputValue then
          .error .invariantViolation
        else
          .ok (e.finalFee, e.amountPerOutput)

/-- Model of `calculateOptimalFee` (`src/feeCalculator.js`).  The argument
`numInputs` is `inputs.length`, `witnessPerInput` is
`config.feeOptions?.estimatedWitnessVBytesPerInput ?? 28`, `numTargets` is
`derivedAddressesMap.size`, and `oracle` is the composite sizing call
`decodeRawTx(rpc, createRawTx(rpc, inputs, outputs)).vsize` for the outputs
built from the iteration candidate amount. -/
def calculateOptimalFee (numInputs witnessPerInput numTargets : ℕ)
    (totalInputValue : ℤ) (feeRate : ℚ) (oracle : ℕ → ℤ → Except String ℕ) : RunOut :=
  if numTargets = 0 then
    { result := .error .zeroTargets, queries := [], guesses := [], requireds := [] }
  else if totalInputValue ≤ 0 then
    { result := .error .nonPositiveTotal, queries := [], guesses := [], requireds := [] }
  else
    let out := feeLoop numInputs witnessPerInput numTargets totalInputValue feeRate oracle
      MAX_FEE_ITERATIONS 0 1 0 0 0 0
    { result := finishResult numTargets totalInputValue out,
      queries := out.queries, guesses := out.guesses, requireds := out.requireds }

/-- A sizing oracle whose reported base size is a constant, independent of the
candidate amount (the amount-invariant-size situation of the specification). -/
def constOracle (base : ℕ) : ℕ → ℤ → Except String ℕ := fun _ _ => .ok base

/-- A sizing oracle whose reported base size keeps growing with every
iteration (and hence with the growing guess). -/
def growingOracle : ℕ → ℤ → Except String ℕ := fun i _ => .ok (300 * (i + 1))

/-- A sizing oracle that always fails with the given message. -/
def failingOracle (msg : String) : ℕ → ℤ → Except String ℕ := fun _ _ => .error msg

theorem rat_mul_den_eq_num (q : ℚ) : q * (q.den : ℚ) = (q.num : ℚ) := by
  have hden : ((q.den : ℚ)) ≠ 0 := by exact_mod_cast q.den_nz
  have hnd := Rat.num_div_den q
  calc q * (q.den : ℚ) = ((q.num : ℚ) / (q.den : ℚ)) * (q.den : ℚ) := by rw [hnd]
    _ = (q.num : ℚ) := div_mul_cancel₀ _ hden

theorem ceil_int_mul_rat (a : ℤ) (q : ℚ) :
    ⌈(a : ℚ) * q⌉ = -(-(a * q.num) / (q.den : ℤ)) := by
  have hden : ((q.den : ℚ)) ≠ 0 := by exact_mod_cast q.den_nz
  have h : ((-(a * q.num) : ℤ) : ℚ) / ((q.den : ℕ) : ℚ) = -((a : ℚ) * q) := by
    rw [div_eq_iff hden]
    push_cast
    rw [neg_mul, mul_assoc, rat_mul_den_eq_num q]
  have hceil : (⌈(a : ℚ) * q⌉ : ℤ) = -⌊-((a : ℚ) * q)⌋ := by
    rw [Int.floor_neg]; ring
  rw [hceil, ← h, Rat.floor_intCast_div_natCast]

theorem sizeBasedFeeOf_eq_ceil (base numInputs witnessPerInput : ℕ) (feeRate : ℚ) :
    sizeBasedFeeOf base numInputs witnessPerInput feeRate
      = ceilToBigInt ((totalVBytesOf base numInputs witnessPerInput : ℚ) * feeRate) := by
  rw [ceilToBigInt, sizeBasedFeeOf]
  rw [show ((totalVBytesOf base numInputs witnessPerInput : ℕ) : ℚ)
      = (((totalVBytesOf base numInputs witnessPerInput : ℕ) : ℤ) : ℚ) by push_cast; ring]
  rw [ceil_int_mul_rat]

theorem finishResult_ok (numTargets : ℕ) (totalInputValue : ℤ) (out : LoopOut)
    (p : ℤ × ℤ) (h : finishResult numTargets totalInputValue out = .ok p) :
    p.2 * (numTargets : ℤ) + p.1 = totalInputValue ∧ 0 < p.1 ∧ 0 < p.2 := by
  unfold finishResult at h
  split at h
  · exact Except.noConfusion h
  · rename_i e
    split at h
    · split at h
      · exact Except.noConfusion h
      · split at h
        · exact Except.noConfusion h
        · split at h
          · exact Except.noConfusion h
          · exact Except.noConfusion h
    · rename_i hpos
      split at h
      · exact Except.noConfusion h
      · rename_i hbal
        injection h with h'
        subst h'
        push_neg at hpos
        simp only [not_not] at hbal
        exact ⟨hbal, by omega, by omega⟩

theorem feeLoop_guesses_head (numInputs witnessPerInput numTargets : ℕ)
    (totalInputValue : ℤ) (feeRate : ℚ) (oracle : ℕ → ℤ → Except String ℕ)
    (fuel i : ℕ) (g lastReq lastSize lastRem : ℤ) (lastTotal : ℕ) :
    (feeLoop numInputs witnessPerInput numTargets totalInputValue feeRate oracle
      fuel i g lastReq lastSize lastRem lastTotal).guesses.head? = some g := by
  cases fuel with
  | zero => rfl
  | succ n =>
    unfold feeLoop
    dsimp only
    split
    · rfl
    · split
      · rfl
      · split
        · rfl
        · split
          · rfl
          · split
            · rfl
            · rfl

theorem feeLoop_guesses_chain (numInputs witnessPerInput numTargets : ℕ)
    (totalInputValue : ℤ) (feeRate : ℚ) (oracle : ℕ → ℤ → Except String ℕ) :
    ∀ (fuel i : ℕ) (g lastReq lastSize lastRem : ℤ) (lastTotal : ℕ),
    List.Chain' (· ≤ ·) (feeLoop numInputs witnessPerInput numTargets totalInputValue
      feeRate oracle fuel i g lastReq lastSize lastRem lastTotal).guesses := by
  intro fuel
  induction fuel with
  | zero =>
    intro i g lastReq lastSize lastRem lastTotal
    simp [feeLoop]
  | succ n ih =>
    intro i g lastReq lastSize lastRem lastTotal
    unfold feeLoop
    dsimp only
    split
    · simp
    · split
      · simp
      · split
        · simp
        · split
          · simp
          · rename_i hlt
            split
            · rename_i hneg
              simp only [List.chain'_cons, List.chain'_singleton, and_true]
              omega
            · rw [List.chain'_cons']
              refine ⟨?_, ih _ _ _ _ _ _⟩
              intro b hb
              rw [feeLoop_guesses_head] at hb
              simp only [Option.mem_def, Option.some.injEq] at hb
              omega

theorem feeLoop_queries_length (numInputs witnessPerInput numTargets : ℕ)
    (totalInputValue : ℤ) (feeRate : ℚ) (oracle : ℕ → ℤ → Except String ℕ) :
    ∀ (fuel i : ℕ) (g lastReq lastSize lastRem : ℤ) (lastTotal : ℕ),
    (feeLoop numInputs witnessPerInput numTargets totalInputValue feeRate oracle
      fuel i g lastReq lastSize lastRem lastTotal).queries.length ≤ fuel := by
  intro fuel
  induction fuel with
  | zero =>
    intro i g lastReq lastSize lastRem lastTotal
    simp [feeLoop]
  | succ n ih =>
    intro i g lastReq lastSize lastRem lastTotal
    unfold feeLoop
    dsimp only
    split
    · simp
    · split
      · simp
      · split
        · simp
        · split
          · simp
          · split
            · simp
            · simp only [List.length_cons]
              exact Nat.add_le_add_right (ih _ _ _ _ _ _) 1

theorem feeLoop_oracleFail (numInputs witnessPerInput numTargets : ℕ)
    (totalInputValue : ℤ) (feeRate : ℚ) (oracle : ℕ → ℤ → Except String ℕ) :
    ∀ (fuel i : ℕ) (g lastReq lastSize lastRem : ℤ) (lastTotal : ℕ) (msg : String),
    (feeLoop numInputs witnessPerInput numTargets totalInputValue feeRate oracle
      fuel i g lastReq lastSize lastRem lastTotal).res = .oracleFail msg →
    ∃ amt,
      (feeLoop numInputs witnessPerInput numTargets totalInputValue feeRate oracle
        fuel i g lastReq lastSize lastRem lastTotal).queries.getLast? = some amt
      ∧ oracle (i + (feeLoop numInputs witnessPerInput numTargets totalInputValue feeRate
          oracle fuel i g lastReq lastSize lastRem lastTotal).queries.length - 1) amt
          = .error msg := by
  intro fuel
  induction fuel with
  | zero =>
    intro i g lastReq lastSize lastRem lastTotal msg h
    exact absurd h (by simp [feeLoop])
  | succ n ih =>
    intro i g lastReq lastSize lastRem lastTotal msg h
    rw [feeLoop] at h ⊢
    dsimp only at h ⊢
    split at h
    · exact absurd h (by simp)
    · rename_i hc1
      split at h
      · exact absurd h (by simp)
      · rename_i hc2
        rw [if_neg hc1, if_neg hc2]
        split at h
        · rename_i heq
          simp only [LoopRes.oracleFail.injEq] at h
          subst h
          exact ⟨_, rfl, heq⟩
        · rename_i base heq
          split at h
          · exact absurd h (by simp)
          · rename_i hc3
            split at h
            · exact absurd h (by simp)
            · rename_i hc4
              rw [if_neg hc3, if_neg hc4]
              dsimp only
              obtain ⟨amt, hlast, horr⟩ := ih (i + 1) _ _ _ _ _ msg h
              cases hq : (feeLoop numInputs witnessPerInput numTargets totalInputValue
                  feeRate oracle n (i + 1)
                  (sizeBasedFeeOf base numInputs witnessPerInput feeRate
                    + (totalInputValue - g) % (numTargets : ℤ))
                  (sizeBasedFeeOf base numInputs witnessPerInput feeRate
                    + (totalInputValue - g) % (numTargets : ℤ))
                  (sizeBasedFeeOf base numInputs witnessPerInput feeRate)
                  ((totalInputValue - g) % (numTargets : ℤ))
                  (totalVBytesOf base numInputs witnessPerInput)).queries with
              | nil => rw [hq] at hlast; exact absurd hlast (by simp)
              | cons a l =>
                rw [hq] at hlast horr
                refine ⟨amt, ?_, ?_⟩
                · rw [List.getLast?_cons_cons]
                  exact hlast
                · simp only [List.length_cons] at horr ⊢
                  have harith : i + (l.length + 1 + 1) - 1 = i + 1 + (l.length + 1) - 1 := by
                    omega
                  rw [harith]
                  exact horr

/-- C1: whenever `calculateOptimalFee` returns successfully, the returned pair
satisfies `amountPerOutput * numTargets + finalFee = totalInputValue` exactly,
for every input and every behaviour of the sizing oracle. -/
theorem calculateOptimalFee_balance_invariant (numInputs witnessPerInput numTargets : ℕ)
    (totalInputValue : ℤ) (feeRate : ℚ) (oracle : ℕ → ℤ → Except String ℕ) (p : ℤ × ℤ)
    (h : (calculateOptimalFee numInputs witnessPerInput numTargets totalInputValue
      feeRate oracle).result = .ok p) :
    p.2 * (numTargets : ℤ) + p.1 = totalInputValue := by
  unfold calculateOptimalFee at h
  split at h
  · simp at h
  · split at h
    · simp at h
    · dsimp only at h
      exact (finishResult_ok _ _ _ _ h).1

theorem calculateOptimalFee_balance_invariant_witness :
    (calculateOptimalFee 3 28 3 100000 2 (constOracle 300)).result = .ok (769, 33077)
    ∧ ((769 : ℤ), (33077 : ℤ)).2 * ((3 : ℕ) : ℤ) + ((769 : ℤ), (33077 : ℤ)).1 = 100000 :=
  ⟨by decide, calculateOptimalFee_balance_invariant 3 28 3 100000 2 (constOracle 300)
    (769, 33077) (by decide)⟩

/-- C8: whenever `calculateOptimalFee` returns successfully, both components of
the result are strictly positive, for every input and every oracle behaviour. -/
theorem calculateOptimalFee_positivity (numInputs witnessPerInput numTargets : ℕ)
    (totalInputValue : ℤ) (feeRate : ℚ) (oracle : ℕ → ℤ → Except String ℕ) (p : ℤ × ℤ)
    (h : (calculateOptimalFee numInputs witnessPerInput numTargets totalInputValue
      feeRate oracle).result = .ok p) :
    0 < p.1 ∧ 0 < p.2 := by
  unfold calculateOptimalFee at h
  split at h
  · simp at h
  · split at h
    · simp at h
    · dsimp only at h
      exact (finishResult_ok _ _ _ _ h).2

theorem calculateOptimalFee_positivity_witness :
    (calculateOptimalFee 3 28 3 100000 2 (constOracle 300)).result = .ok (769, 33077)
    ∧ (0 < ((769 : ℤ), (33077 : ℤ)).1 ∧ 0 < ((769 : ℤ), (33077 : ℤ)).2) :=
  ⟨by decide, calculateOptimalFee_positivity 3 28 3 100000 2 (constOracle 300)
    (769, 33077) (by decide)⟩

/-- C7: the recorded sequence of values of `currentFeeGuess` is non-decreasing
across the iterations of every run. -/
theorem calculateOptimalFee_guess_monotone (numInputs witnessPerInput numTargets : ℕ)
    (totalInputValue : ℤ) (feeRate : ℚ) (oracle : ℕ → ℤ → Except String ℕ) :
    List.Chain' (· ≤ ·) (calculateOptimalFee numInputs witnessPerInput numTargets
      totalInputValue feeRate oracle).guesses := by
  unfold calculateOptimalFee
  split
  · simp
  · split
    · simp
    · dsimp only
      exact feeLoop_guesses_chain _ _ _ _ _ _ _ _ _ _ _ _ _

/-- C5: every run makes at most `MAX_FEE_ITERATIONS = 20` oracle calls (one
per loop iteration), and a sizing oracle whose reported base size keeps
growing with the guess exhausts the cap and fails with the non-convergence
error instead of looping forever or returning a result. -/
theorem calculateOptimalFee_iteration_cap :
    (∀ (numInputs witnessPerInput numTargets : ℕ) (totalInputValue : ℤ) (feeRate : ℚ)
      (oracle : ℕ → ℤ → Except String ℕ),
      (calculateOptimalFee numInputs witnessPerInput numTargets totalInputValue feeRate
        oracle).queries.length ≤ MAX_FEE_ITERATIONS)
    ∧ (calculateOptimalFee 3 28 2 1000000000 1 growingOracle).result
        = .error (.nonConvergence 6085 6085)
    ∧ (calculateOptimalFee 3 28 2 1000000000 1 growingOracle).queries.length
        = MAX_FEE_ITERATIONS := by
  refine ⟨?_, by decide, by decide⟩
  intro numInputs witnessPerInput numTargets totalInputValue feeRate oracle
  unfold calculateOptimalFee
  split
  · simp
  · split
    · simp
    · dsimp only
      exact feeLoop_queries_length _ _ _ _ _ _ _ _ _ _ _ _ _

/-- C6: the per-iteration size-based fee is exactly the ceiling of
`totalVBytes * feeRate` computed in exact rational arithmetic, where
`totalVBytes = baseVBytes + numInputs * witnessVBytesPerInput`, so it never
falls below `totalVBytes * feeRate`. -/
theorem sizeBasedFee_is_exact_ceiling (base numInputs witnessPerInput : ℕ) (feeRate : ℚ) :
    totalVBytesOf base numInputs witnessPerInput = base + numInputs * witnessPerInput
    ∧ sizeBasedFeeOf base numInputs witnessPerInput feeRate
        = ceilToBigInt ((totalVBytesOf base numInputs witnessPerInput : ℚ) * feeRate)
    ∧ sizeBasedFeeOf base numInputs witnessPerInput feeRate
        = ⌈(totalVBytesOf base numInputs witnessPerInput : ℚ) * feeRate⌉
    ∧ (totalVBytesOf base numInputs witnessPerInput : ℚ) * feeRate
        ≤ (sizeBasedFeeOf base numInputs witnessPerInput feeRate : ℚ) := by
  refine ⟨rfl, sizeBasedFeeOf_eq_ceil _ _ _ _, sizeBasedFeeOf_eq_ceil _ _ _ _, ?_⟩
  rw [sizeBasedFeeOf_eq_ceil, ceilToBigInt]
  exact Int.le_ceil _

/-- C9 (amended): when a sizing-oracle call fails, the run aborts at once with
a sizing failure whose message wraps the oracle message behind the fixed
prefix, and the failing call is the last oracle call made (so the oracle is
not retried). -/
theorem calculateOptimalFee_sizing_failure_wrapped (numInputs witnessPerInput numTargets : ℕ)
    (totalInputValue : ℤ) (feeRate : ℚ) (oracle : ℕ → ℤ → Except String ℕ) (msg : String)
    (h : (calculateOptimalFee numInputs witnessPerInput numTargets totalInputValue
      feeRate oracle).result = .error (.sizingFailure msg)) :
    (FeeErr.sizingFailure msg).message = "Failed during fee calculation iteration: " ++ msg
    ∧ ∃ amt,
        (calculateOptimalFee numInputs witnessPerInput numTargets totalInputValue feeRate
          oracle).queries.getLast? = some amt
        ∧ oracle ((calculateOptimalFee numInputs witnessPerInput numTargets totalInputValue
            feeRate oracle).queries.length - 1) amt = .error msg := by
  refine ⟨rfl, ?_⟩
  unfold calculateOptimalFee at h ⊢
  split at h
  · simp at h
  · rename_i hc0
    split at h
    · simp at h
    · rename_i hc1
      rw [if_neg hc0, if_neg hc1]
      dsimp only at h ⊢
      have hres : (feeLoop numInputs witnessPerInput numTargets totalInputValue feeRate
          oracle MAX_FEE_ITERATIONS 0 1 0 0 0 0).res = .oracleFail msg := by
        unfold finishResult at h
        split at h
        · rename_i hm
          simp only [Except.error.injEq, FeeErr.sizingFailure.injEq] at h
          rw [← h]
          exact hm
        · split at h
          · split at h
            · simp at h
            · split at h
              · simp at h
              · split at h
                · simp at h
                · simp at h
          · split at h
            · simp at h
            · simp at h
      obtain ⟨amt, hlast, horacle⟩ := feeLoop_oracleFail numInputs witnessPerInput
        numTargets totalInputValue feeRate oracle MAX_FEE_ITERATIONS 0 1 0 0 0 0 msg hres
      refine ⟨amt, hlast, ?_⟩
      simpa using horacle

theorem calculateOptimalFee_sizing_failure_wrapped_witness :
    (calculateOptimalFee 1 28 1 100 1 (failingOracle "boom")).result
        = .error (.sizingFailure "boom")
    ∧ ((FeeErr.sizingFailure "boom").message
          = "Failed during fee calculation iteration: " ++ "boom"
        ∧ ∃ amt,
            (calculateOptimalFee 1 28 1 100 1 (failingOracle "boom")).queries.getLast?
              = some amt
            ∧ failingOracle "boom" ((calculateOptimalFee 1 28 1 100 1
                (failingOracle "boom")).queries.length - 1) amt = .error "boom") :=
  ⟨by decide, calculateOptimalFee_sizing_failure_wrapped 1 28 1 100 1
    (failingOracle "boom") "boom" (by decide)⟩

/-- C9 (counterexample): the oracle failure is not propagated verbatim; the
error that reaches the caller carries a different message than the one the
oracle threw, because the source wraps it in a new message. -/
theorem sizingFailure_message_not_verbatim :
    (calculateOptimalFee 1 28 1 100 1 (failingOracle "boom")).result
        = .error (.sizingFailure "boom")
    ∧ (FeeErr.sizingFailure "boom").message ≠ "boom" := by
  refine ⟨by decide, ?_⟩
  decide

/-- C10: with zero target outputs or a non-positive total input value the call
throws at once, before the search loop starts and before any oracle call. -/
theorem calculateOptimalFee_early_guards (numInputs witnessPerInput numTargets : ℕ)
    (totalInputValue : ℤ) (feeRate : ℚ) (oracle : ℕ → ℤ → Except String ℕ)
    (h : numTargets = 0 ∨ totalInputValue ≤ 0) :
    ((calculateOptimalFee numInputs witnessPerInput numTargets totalInputValue feeRate
        oracle).result = .error .zeroTargets
      ∨ (calculateOptimalFee numInputs witnessPerInput numTargets totalInputValue feeRate
        oracle).result = .error .nonPositiveTotal)
    ∧ (calculateOptimalFee numInputs witnessPerInput numTargets totalInputValue feeRate
        oracle).queries = [] := by
  unfold calculateOptimalFee
  rcases h with h | h
  · rw [if_pos h]
    exact ⟨Or.inl rfl, rfl⟩
  · by_cases h0 : numTargets = 0
    · rw [if_pos h0]
      exact ⟨Or.inl rfl, rfl⟩
    · rw [if_neg h0, if_pos h]
      exact ⟨Or.inr rfl, rfl⟩

theorem calculateOptimalFee_early_guards_witness :
    ((calculateOptimalFee 3 28 0 100000 2 (constOracle 300)).result = .error .zeroTargets
      ∨ (calculateOptimalFee 3 28 0 100000 2 (constOracle 300)).result
          = .error .nonPositiveTotal)
    ∧ (calculateOptimalFee 3 28 0 100000 2 (constOracle 300)).queries = [] :=
  calculateOptimalFee_early_guards 3 28 0 100000 2 (constOracle 300) (Or.inl rfl)

/-- C3 (code evaluation): on a perfectly valid input (positive total, three
targets, fee rate 2 at least 1, a constant well-behaved oracle) the run ends
in the internal balance-equation error, so the branch the claim calls
unreachable is reached. -/
theorem invariantViolation_reached_on_valid_input :
    (calculateOptimalFee 3 28 3 100001 2 (constOracle 300)).result
        = .error .invariantViolation
    ∧ (0 : ℤ) < 100001
    ∧ (1 : ℚ) ≤ 2 := by
  refine ⟨by decide, by decide, ?_⟩
  norm_num

/-- C2 (code evaluation): a successful run returns fee 771, although the
smaller fee 770 also satisfies the ascent rule for the very same oracle:
the amount derived from 770 is positive and 770 meets the size-based fee
plus remainder for that amount. -/
theorem minimality_violated_on_successful_run :
    (calculateOptimalFee 1 28 5 100001 1 (constOracle 741)).result = .ok (771, 19846)
    ∧ (770 : ℤ) < 771
    ∧ 0 < (100001 - 770 : ℤ) / 5
    ∧ constOracle 741 0 ((100001 - 770 : ℤ) / 5) = .ok 741
    ∧ sizeBasedFeeOf 741 1 28 1 + (100001 - 770 : ℤ) % 5 ≤ 770 := by
  decide

/-- C4 (counterexample): in concrete scenario B the required fee computed in
the first iteration is 768, not 769, and the run takes three oracle-backed
iterations, not two. -/
theorem scenarioB_iteration_narrative_false :
    (calculateOptimalFee 3 28 3 100000 2 (constOracle 300)).requireds.head? = some 768
    ∧ (calculateOptimalFee 3 28 3 100000 2 (constOracle 300)).requireds.head? ≠ some 769
    ∧ (calculateOptimalFee 3 28 3 100000 2 (constOracle 300)).queries.length = 3
    ∧ (calculateOptimalFee 3 28 3 100000 2 (constOracle 300)).queries.length ≠ 2 := by
  decide

/-- C4 (amended): scenario B converges to finalFee 769 and amountPerOutput
33077 with 33077 * 3 + 769 = 100000, after three iterations whose guesses are
1, 768, 769 and whose required fees are 768, 769, 768. -/
theorem scenarioB_converges_to_769 :
    (calculateOptimalFee 3 28 3 100000 2 (constOracle 300)).result = .ok (769, 33077)
    ∧ (calculateOptimalFee 3 28 3 100000 2 (constOracle 300)).guesses = [1, 768, 769]
    ∧ (calculateOptimalFee 3 28 3 100000 2 (constOracle 300)).requireds = [768, 769, 768]
    ∧ (33077 : ℤ) * 3 + 769 = 100000 := by
  decide
